import Mathlib

/-!
Shallow embedding of `pkg/arangod/agency/election/leader_election.go`
(arangodb-helper/go-helper): a lease-based leader-election cell driven
against an agency (linearizable KV store with conditional transactions).

Time is modelled in nanoseconds (Go `time.Time` / `time.Duration`);
`unixOf` is Go's `Time.Unix()` (floor division by 10^9).  Store
interactions are oracle inputs: each loop iteration of `Update` consumes
one `StepInput` carrying the read outcome, the two `time.Now()` samples,
the write outcome and the context state.  Every call the Go code makes
to `cli.WriteTransaction` is recorded in `issuedTrx`.
-/

namespace Election

/-- Errors distinguishable by the Go predicates `agency.IsKeyNotFound`
and `driver.IsPreconditionFailed`; `other` is any transport/store error. -/
inductive AgencyError where
  | keyNotFound
  | preconditionFailed
  | other
deriving DecidableEq, Repr

/-- `leaderStruct[T]`: the record stored at the election key
(`data` payload and absolute `ttl` expiry in unix seconds). -/
structure leaderStruct (T : Type) where
  Data : T
  TTL : Int
deriving DecidableEq, Repr

instance instInhabitedLeaderStruct {T : Type} [Inhabited T] : Inhabited (leaderStruct T) :=
  ⟨{ Data := default, TTL := 0 }⟩

def keyData : String := "data"

def keyTTL : String := "ttl"

/-- `LeaderElectionCell[T]`: client-side election state. -/
structure LeaderElectionCell (T : Type) where
  lastTTL : Int
  leading : Bool
  key : List String
  ttl : Int
deriving DecidableEq, Repr

/-- `NewLeaderElectionCell`. -/
def NewLeaderElectionCell (T : Type) (key : List String) (ttl : Int) : LeaderElectionCell T :=
  { lastTTL := 0, leading := false, key := key, ttl := ttl }

def nsPerSecond : Int := 1000000000

/-- Go `Time.Unix()` on an instant measured in nanoseconds since epoch. -/
def unixOf (t : Int) : Int := Int.fdiv t nsPerSecond

/-- `minUpdateDelay = time.Millisecond * 500` in nanoseconds. -/
def minUpdateDelay : Int := 500000000

/-- Agency write preconditions used by the cell
(`NewConditionOldEmpty`, `NewConditionIfEqual`). -/
inductive Condition (T : Type) where
  | oldEmpty (b : Bool)
  | ifEqualTTL (v : Int)
  | ifEqualData (v : T)
deriving DecidableEq, Repr

/-- Agency write operations used by the cell (`NewKeySet`, `NewKeyDelete`). -/
inductive KeyOp (T : Type) where
  | set (key : List String) (val : leaderStruct T) (ttlParam : Int)
  | delete (key : List String)
deriving DecidableEq, Repr

/-- An agency write transaction: the keys written and the preconditions. -/
structure Transaction (T : Type) where
  keys : List (KeyOp T)
  conditions : List (List String × Condition T)
deriving DecidableEq, Repr

/-- The transaction built by `tryBecomeLeader`: write
`{Data: value, TTL: now+ttl (unix)}` at `key`, guarded by `oldEmpty`
when `assumeEmpty`, else by `ttl == l.lastTTL`. -/
def tryBecomeLeaderTrx {T : Type} (l : LeaderElectionCell T) (value : T)
    (assumeEmpty : Bool) (now : Int) : Transaction T :=
  let newTTL := unixOf (now + l.ttl)
  { keys := [KeyOp.set l.key { Data := value, TTL := newTTL } 0],
    conditions :=
      if assumeEmpty then [(l.key, Condition.oldEmpty true)]
      else [(l.key ++ [keyTTL], Condition.ifEqualTTL l.lastTTL)] }

/-- Oracle input for one iteration of `Update`'s loop: the outcome of
`readCell`, the `time.Now()` sample in the loop body, the `time.Now()`
sample inside `tryBecomeLeader`, the outcome of `WriteTransaction`
(when one is issued), and whether `ctx.Err() != nil`. -/
structure StepInput (T : Type) where
  readResult : Except AgencyError (leaderStruct T)
  now : Int
  writeNow : Int
  writeResult : Option AgencyError
  ctxDone : Bool

/-- What one iteration of `Update`'s loop does: return a 4-tuple, or
sleep `sleepDelay` and restart from the re-read. -/
inductive StepOutcome (T : Type) where
  | ret (currentValue : T) (isLeader : Bool) (nextCallDelay : Int) (err : Option AgencyError)
  | retry (sleepDelay : Int)
deriving DecidableEq, Repr

/-- Result of one loop iteration: the cell afterwards, the outcome, and
the transaction issued to the store in this iteration, if any. -/
structure StepResult (T : Type) where
  cell : LeaderElectionCell T
  out : StepOutcome T
  issuedTrx : Option (Transaction T)
deriving DecidableEq, Repr

/-- The `tryLeaderElection:` label block of `Update`, inlining
`tryBecomeLeader`: issue the conditional write; on success set
`lastTTL = newTTL`, `leading = true` and return `(value, true, ttl/2, nil)`;
on a non-precondition failure, or a precondition failure with the context
done, return `(default, false, 0, err)`; otherwise sleep and retry. -/
def tryLeaderElectionBlock {T : Type} [Inhabited T] (l : LeaderElectionCell T) (value : T)
    (assumeEmpty : Bool) (inp : StepInput T) : StepResult T :=
  let trx := tryBecomeLeaderTrx l value assumeEmpty inp.writeNow
  match inp.writeResult with
  | none =>
      { cell := { l with lastTTL := unixOf (inp.writeNow + l.ttl), leading := true },
        out := StepOutcome.ret value true (Int.tdiv l.ttl 2) none,
        issuedTrx := some trx }
  | some e =>
      if e = AgencyError.preconditionFailed then
        if inp.ctxDone then
          { cell := l, out := StepOutcome.ret default false 0 (some e), issuedTrx := some trx }
        else
          { cell := l, out := StepOutcome.retry minUpdateDelay, issuedTrx := some trx }
      else
        { cell := l, out := StepOutcome.ret default false 0 (some e), issuedTrx := some trx }

/-- The decision block of `Update`'s loop body (the `{ ... }` block after
the read): expiry check, bootstrap reconciliation, own-lease renewal,
or the someone-else-leads return with the clamped delay. -/
def updateDecision {T : Type} [Inhabited T] [DecidableEq T] (l : LeaderElectionCell T)
    (value : T) (result : leaderStruct T) (inp : StepInput T) : StepResult T :=
  let nowU := unixOf inp.now
  if result.TTL < nowU then
    tryLeaderElectionBlock { l with lastTTL := result.TTL, leading := false } value false inp
  else
    let l1 :=
      if result.TTL > nowU ∧ l.leading = false ∧ l.lastTTL = 0 then
        { l with lastTTL := result.TTL, leading := decide (result.Data = value) }
      else l
    if result.TTL = l1.lastTTL ∧ l1.leading = true then
      tryLeaderElectionBlock l1 value false inp
    else
      let l2 := { l1 with lastTTL := result.TTL, leading := false }
      let updateDelay := result.TTL * nsPerSecond - inp.now
      let updateDelay1 := if updateDelay < minUpdateDelay then minUpdateDelay else updateDelay
      { cell := l2, out := StepOutcome.ret result.Data false updateDelay1 none, issuedTrx := none }

/-- One iteration of `Update`'s `for` loop.  A `keyNotFound` read error
jumps to the election block with `assumeEmpty = true`; any other read
error falls through to the decision block with the zero-valued
`result` (Go leaves `result` at its zero value). -/
def updateStep {T : Type} [Inhabited T] [DecidableEq T] (l : LeaderElectionCell T)
    (value : T) (inp : StepInput T) : StepResult T :=
  match inp.readResult with
  | Except.error e =>
      if e = AgencyError.keyNotFound then
        tryLeaderElectionBlock l value true inp
      else
        updateDecision l value default inp
  | Except.ok result => updateDecision l value result inp

/-- `Update` as iteration of `updateStep` over the oracle inputs; `none`
means the provided oracle ran out before the loop returned. -/
def updateLoop {T : Type} [Inhabited T] [DecidableEq T] :
    LeaderElectionCell T → T → List (StepInput T) →
    Option (LeaderElectionCell T × T × Bool × Int × Option AgencyError)
  | _, _, [] => none
  | l, value, inp :: rest =>
      match updateStep l value inp with
      | { cell := l1, out := StepOutcome.ret v isL d e, issuedTrx := _ } =>
          some (l1, v, isL, d, e)
      | { cell := l1, out := StepOutcome.retry _, issuedTrx := _ } =>
          updateLoop l1 value rest

/-- The record value `Update`'s decision block actually works on for a
given read outcome: the read record on success, the zero value on a
fall-through read error. -/
def readRecordOf {T : Type} [Inhabited T] (inp : StepInput T) : leaderStruct T :=
  match inp.readResult with
  | Except.ok r => r
  | Except.error _ => default

/-- `Read`: a single read; `keyNotFound` maps to the zero value with no
error, any other error is surfaced; the cell is returned unchanged
(the Go method assigns no field). -/
def Read {T : Type} [Inhabited T] (l : LeaderElectionCell T)
    (readResult : Except AgencyError (leaderStruct T)) :
    LeaderElectionCell T × T × Option AgencyError :=
  match readResult with
  | Except.error e =>
      if e = AgencyError.keyNotFound then (l, default, none) else (l, default, some e)
  | Except.ok r => (l, r.Data, none)

/-- The conditional-delete transaction issued by `Resign`. -/
def resignTrx {T : Type} (l : LeaderElectionCell T) : Transaction T :=
  { keys := [KeyOp.delete l.key],
    conditions := [(l.key ++ [keyTTL], Condition.ifEqualTTL l.lastTTL)] }

/-- Result of `Resign`: the cell afterwards, the returned error, and the
transaction issued, if any. -/
structure ResignResult (T : Type) where
  cell : LeaderElectionCell T
  err : Option AgencyError
  issuedTrx : Option (Transaction T)
deriving DecidableEq, Repr

/-- `Resign`: no-op when not leading; otherwise clear `leading`, issue the
conditional delete, and downgrade a precondition failure to success. -/
def Resign {T : Type} (l : LeaderElectionCell T) (writeResult : Option AgencyError) :
    ResignResult T :=
  if l.leading = false then { cell := l, err := none, issuedTrx := none }
  else
    let l1 := { l with leading := false }
    let trx := resignTrx l
    match writeResult with
    | none => { cell := l1, err := none, issuedTrx := some trx }
    | some e =>
        if e = AgencyError.preconditionFailed then
          { cell := l1, err := none, issuedTrx := some trx }
        else
          { cell := l1, err := some e, issuedTrx := some trx }

/-! Helper lemmas characterizing the election block and the loop body. -/

theorem tryBlock_issuedTrx {T : Type} [Inhabited T] (l : LeaderElectionCell T) (value : T)
    (ae : Bool) (inp : StepInput T) :
    (tryLeaderElectionBlock l value ae inp).issuedTrx =
      some (tryBecomeLeaderTrx l value ae inp.writeNow) := by
  unfold tryLeaderElectionBlock
  cases hw : inp.writeResult with
  | none => rfl
  | some e => simp only; split_ifs <;> rfl

theorem tryBlock_success {T : Type} [Inhabited T] (l : LeaderElectionCell T) (value : T)
    (ae : Bool) (inp : StepInput T) (hw : inp.writeResult = none) :
    tryLeaderElectionBlock l value ae inp =
      { cell := { l with lastTTL := unixOf (inp.writeNow + l.ttl), leading := true },
        out := StepOutcome.ret value true (Int.tdiv l.ttl 2) none,
        issuedTrx := some (tryBecomeLeaderTrx l value ae inp.writeNow) } := by
  simp only [tryLeaderElectionBlock, hw]

theorem tryBlock_fail_other {T : Type} [Inhabited T] (l : LeaderElectionCell T) (value : T)
    (ae : Bool) (inp : StepInput T) (e : AgencyError) (hw : inp.writeResult = some e)
    (hne : e ≠ AgencyError.preconditionFailed) :
    tryLeaderElectionBlock l value ae inp =
      { cell := l, out := StepOutcome.ret default false 0 (some e),
        issuedTrx := some (tryBecomeLeaderTrx l value ae inp.writeNow) } := by
  simp only [tryLeaderElectionBlock, hw]
  simp [hne]

theorem tryBlock_fail_pf_done {T : Type} [Inhabited T] (l : LeaderElectionCell T) (value : T)
    (ae : Bool) (inp : StepInput T)
    (hw : inp.writeResult = some AgencyError.preconditionFailed) (hcd : inp.ctxDone = true) :
    tryLeaderElectionBlock l value ae inp =
      { cell := l, out := StepOutcome.ret default false 0 (some AgencyError.preconditionFailed),
        issuedTrx := some (tryBecomeLeaderTrx l value ae inp.writeNow) } := by
  simp only [tryLeaderElectionBlock, hw]
  simp [hcd]

theorem tryBlock_fail_pf_retry {T : Type} [Inhabited T] (l : LeaderElectionCell T) (value : T)
    (ae : Bool) (inp : StepInput T)
    (hw : inp.writeResult = some AgencyError.preconditionFailed) (hcd : inp.ctxDone = false) :
    tryLeaderElectionBlock l value ae inp =
      { cell := l, out := StepOutcome.retry minUpdateDelay,
        issuedTrx := some (tryBecomeLeaderTrx l value ae inp.writeNow) } := by
  simp only [tryLeaderElectionBlock, hw]
  simp [hcd]

/-- Exhaustive shape of the election block's result, by write outcome. -/
theorem tryBlock_shape {T : Type} [Inhabited T] (l : LeaderElectionCell T) (value : T)
    (ae : Bool) (inp : StepInput T) :
    (inp.writeResult = none ∧
      tryLeaderElectionBlock l value ae inp =
        { cell := { l with lastTTL := unixOf (inp.writeNow + l.ttl), leading := true },
          out := StepOutcome.ret value true (Int.tdiv l.ttl 2) none,
          issuedTrx := some (tryBecomeLeaderTrx l value ae inp.writeNow) }) ∨
    (∃ e, inp.writeResult = some e ∧ e ≠ AgencyError.preconditionFailed ∧
      tryLeaderElectionBlock l value ae inp =
        { cell := l, out := StepOutcome.ret default false 0 (some e),
          issuedTrx := some (tryBecomeLeaderTrx l value ae inp.writeNow) }) ∨
    (inp.writeResult = some AgencyError.preconditionFailed ∧ inp.ctxDone = true ∧
      tryLeaderElectionBlock l value ae inp =
        { cell := l, out := StepOutcome.ret default false 0 (some AgencyError.preconditionFailed),
          issuedTrx := some (tryBecomeLeaderTrx l value ae inp.writeNow) }) ∨
    (inp.writeResult = some AgencyError.preconditionFailed ∧ inp.ctxDone = false ∧
      tryLeaderElectionBlock l value ae inp =
        { cell := l, out := StepOutcome.retry minUpdateDelay,
          issuedTrx := some (tryBecomeLeaderTrx l value ae inp.writeNow) }) := by
  cases hw : inp.writeResult with
  | none => exact Or.inl ⟨rfl, tryBlock_success l value ae inp hw⟩
  | some e =>
      by_cases hpf : e = AgencyError.preconditionFailed
      · subst hpf
        cases hcd : inp.ctxDone with
        | true =>
            exact Or.inr (Or.inr (Or.inl ⟨rfl, rfl, tryBlock_fail_pf_done l value ae inp hw hcd⟩))
        | false =>
            exact Or.inr (Or.inr (Or.inr ⟨rfl, rfl, tryBlock_fail_pf_retry l value ae inp hw hcd⟩))
      · exact Or.inr (Or.inl ⟨e, rfl, hpf, tryBlock_fail_other l value ae inp e hw hpf⟩)

/-- The decision block either enters the election block with `assumeEmpty = false`
on a cell that differs from `l` at most in `lastTTL`/`leading` and whose
`lastTTL` equals the observed record's TTL (the expired branch just assigned
it; the renew branch required the equality), or issues no write and returns
the someone-else-leads tuple with the clamped delay. -/
theorem updateDecision_cases {T : Type} [Inhabited T] [DecidableEq T]
    (l : LeaderElectionCell T) (value : T) (result : leaderStruct T) (inp : StepInput T) :
    (∃ lw : LeaderElectionCell T, lw.key = l.key ∧ lw.ttl = l.ttl ∧
        lw.lastTTL = result.TTL ∧
        updateDecision l value result inp = tryLeaderElectionBlock lw value false inp) ∨
    ((updateDecision l value result inp).issuedTrx = none ∧
      (updateDecision l value result inp).out =
        StepOutcome.ret result.Data false
          (if result.TTL * nsPerSecond - inp.now < minUpdateDelay then minUpdateDelay
           else result.TTL * nsPerSecond - inp.now) none) := by
  simp only [updateDecision]
  split_ifs with h1 h2 h3 h4 h5 h6
  all_goals first
    | exact Or.inl ⟨{ l with lastTTL := result.TTL, leading := false }, rfl, rfl, rfl, rfl⟩
    | exact Or.inl ⟨{ l with lastTTL := result.TTL, leading := decide (result.Data = value) },
        rfl, rfl, rfl, rfl⟩
    | (have hren : result.TTL = l.lastTTL ∧ l.leading = true := by assumption
       exact Or.inl ⟨l, rfl, rfl, hren.1.symm, rfl⟩)
    | exact Or.inr ⟨rfl, rfl⟩

/-- The loop body either enters the election block — with `assumeEmpty` true
exactly on the key-not-found read path, and otherwise on a cell whose
`lastTTL` (the fence of the issued write) equals the observed record's TTL —
or issues no write and returns the someone-else-leads tuple. -/
theorem updateStep_cases {T : Type} [Inhabited T] [DecidableEq T]
    (l : LeaderElectionCell T) (value : T) (inp : StepInput T) :
    (∃ (lw : LeaderElectionCell T) (ae : Bool), lw.key = l.key ∧ lw.ttl = l.ttl ∧
        (ae = false → lw.lastTTL = (readRecordOf inp).TTL) ∧
        (ae = true ↔ inp.readResult = Except.error AgencyError.keyNotFound) ∧
        updateStep l value inp = tryLeaderElectionBlock lw value ae inp) ∨
    ((updateStep l value inp).issuedTrx = none ∧
      (updateStep l value inp).out =
        StepOutcome.ret (readRecordOf inp).Data false
          (if (readRecordOf inp).TTL * nsPerSecond - inp.now < minUpdateDelay then minUpdateDelay
           else (readRecordOf inp).TTL * nsPerSecond - inp.now) none) := by
  cases hr : inp.readResult with
  | error e =>
      by_cases he : e = AgencyError.keyNotFound
      · subst he
        refine Or.inl ⟨l, true, rfl, rfl, fun hco => Bool.noConfusion hco,
          iff_of_true rfl rfl, ?_⟩
        simp [updateStep, hr]
      · have hstep : updateStep l value inp = updateDecision l value default inp := by
          simp [updateStep, hr, he]
        have hrec : readRecordOf inp = (default : leaderStruct T) := by
          simp [readRecordOf, hr]
        rw [hstep, hrec]
        rcases updateDecision_cases l value default inp with ⟨lw, hk, ht, hlast, heq⟩ | hret
        · refine Or.inl ⟨lw, false, hk, ht, fun _ => hlast,
            iff_of_false Bool.false_ne_true ?_, heq⟩
          intro hco
          injection hco with h1
          exact he h1
        · exact Or.inr hret
  | ok r =>
      have hstep : updateStep l value inp = updateDecision l value r inp := by
        simp [updateStep, hr]
      have hrec : readRecordOf inp = r := by
        simp [readRecordOf, hr]
      rw [hstep, hrec]
      rcases updateDecision_cases l value r inp with ⟨lw, hk, ht, hlast, heq⟩ | hret
      · refine Or.inl ⟨lw, false, hk, ht, fun _ => hlast,
          iff_of_false Bool.false_ne_true ?_, heq⟩
        intro hco
        cases hco
      · exact Or.inr hret

theorem minUpdateDelay_le_clamped (x : Int) :
    minUpdateDelay ≤ (if x < minUpdateDelay then minUpdateDelay else x) := by
  split_ifs with h
  · exact le_refl minUpdateDelay
  · exact le_of_not_lt h

/-- A loop-body return with `isLeader = false` and no error comes only from
the someone-else-leads branch: the value is the observed record's payload and
the delay is the clamped remaining time until its expiry. -/
theorem updateStep_false_none {T : Type} [Inhabited T] [DecidableEq T]
    (l : LeaderElectionCell T) (value : T) (inp : StepInput T) (v : T) (d : Int)
    (h : (updateStep l value inp).out = StepOutcome.ret v false d none) :
    v = (readRecordOf inp).Data ∧
    d = (if (readRecordOf inp).TTL * nsPerSecond - inp.now < minUpdateDelay then minUpdateDelay
         else (readRecordOf inp).TTL * nsPerSecond - inp.now) := by
  rcases updateStep_cases l value inp with ⟨lw, ae, _, _, _, _, heq⟩ | ⟨_, hout⟩
  · rw [heq] at h
    rcases tryBlock_shape lw value ae inp with ⟨_, hb⟩ | ⟨e, _, _, hb⟩ | ⟨_, _, hb⟩ | ⟨_, _, hb⟩ <;>
      rw [hb] at h <;> simp at h
  · rw [hout] at h
    injection h with h1 h2 h3 h4
    exact ⟨h1.symm, h3.symm⟩

/-- A loop-body return carrying an error always carries the zero value,
`false` and delay `0`. -/
theorem updateStep_error {T : Type} [Inhabited T] [DecidableEq T]
    (l : LeaderElectionCell T) (value : T) (inp : StepInput T)
    (v : T) (isL : Bool) (d : Int) (e : AgencyError)
    (h : (updateStep l value inp).out = StepOutcome.ret v isL d (some e)) :
    v = default ∧ isL = false ∧ d = 0 := by
  rcases updateStep_cases l value inp with ⟨lw, ae, _, _, _, _, heq⟩ | ⟨_, hout⟩
  · rw [heq] at h
    rcases tryBlock_shape lw value ae inp with ⟨_, hb⟩ | ⟨e2, _, _, hb⟩ | ⟨_, _, hb⟩ | ⟨_, _, hb⟩ <;>
      rw [hb] at h
    · simp at h
    · injection h with h1 h2 h3 h4
      exact ⟨h1.symm, h2.symm, h3.symm⟩
    · injection h with h1 h2 h3 h4
      exact ⟨h1.symm, h2.symm, h3.symm⟩
    · simp at h
  · rw [hout] at h
    simp at h

/-! Claim theorems. -/

/-- C1 (counterexample): with a newly constructed cell (lastTTL = 0,
leading = false) and a present, unexpired record whose value equals the
candidate value, the first `Update` iteration DOES issue a write
transaction to the store, and the cell's lastKnownExpiry afterwards is
the freshly computed expiry, not the record's expiry (100). -/
theorem C1_counterexample :
    ((updateStep (NewLeaderElectionCell Nat ["a", "leader"] 2000000000) 5
      { readResult := Except.ok { Data := 5, TTL := 100 }, now := 50000000000,
        writeNow := 50000000000, writeResult := none, ctxDone := false }).issuedTrx.isSome
      = true) ∧
    ((updateStep (NewLeaderElectionCell Nat ["a", "leader"] 2000000000) 5
      { readResult := Except.ok { Data := 5, TTL := 100 }, now := 50000000000,
        writeNow := 50000000000, writeResult := none, ctxDone := false }).cell.lastTTL
      ≠ 100) := by
  constructor
  · rfl
  · decide

/-- C1 (amended): on a newly constructed cell (lastTTL = 0, leading = false),
if the record at key is present with expiry strictly in the future and its
value equals candidateValue, the first `Update` iteration adopts
believesLeading = true and lastKnownExpiry = record.expiry and then
immediately issues a renewal write fenced on the record's expiry; when that
write succeeds it returns (candidateValue, isLeader = true, leaseDuration/2,
no error), leaving lastKnownExpiry at the newly written expiry. -/
theorem C1_amended {T : Type} [Inhabited T] [DecidableEq T]
    (l : LeaderElectionCell T) (value : T) (r : leaderStruct T) (inp : StepInput T)
    (hfresh1 : l.lastTTL = 0) (hfresh2 : l.leading = false)
    (hread : inp.readResult = Except.ok r)
    (hfut : unixOf inp.now < r.TTL)
    (hval : r.Data = value)
    (hw : inp.writeResult = none) :
    (updateStep l value inp).issuedTrx =
      some (tryBecomeLeaderTrx { l with lastTTL := r.TTL, leading := true } value false
        inp.writeNow) ∧
    (tryBecomeLeaderTrx { l with lastTTL := r.TTL, leading := true } value false
        inp.writeNow).conditions =
      [(l.key ++ [keyTTL], Condition.ifEqualTTL r.TTL)] ∧
    (updateStep l value inp).out = StepOutcome.ret value true (Int.tdiv l.ttl 2) none ∧
    (updateStep l value inp).cell.leading = true ∧
    (updateStep l value inp).cell.lastTTL = unixOf (inp.writeNow + l.ttl) := by
  have hstep : updateStep l value inp = updateDecision l value r inp := by
    simp [updateStep, hread]
  have hd : decide (r.Data = value) = true := decide_eq_true hval
  have hnotlt : ¬ r.TTL < unixOf inp.now := lt_asymm hfut
  have hblock : updateDecision l value r inp =
      tryLeaderElectionBlock { l with lastTTL := r.TTL, leading := true } value false inp := by
    simp [updateDecision, hnotlt, hfut, hfresh1, hfresh2, hd]
  rw [hstep, hblock,
    tryBlock_success { l with lastTTL := r.TTL, leading := true } value false inp hw]
  exact ⟨rfl, rfl, rfl, rfl, rfl⟩

/-- C2 (code bug): on a read failure that is NOT key-not-found (a transport
or store error), `Update` does not surface the error: the zero-valued record
falls through the decision block, is treated as an expired lease, and a
claim write guarded by ttl = 0 is issued; when that write succeeds, `Update`
even reports leadership with no error.  Concrete evaluation of one
iteration on a fresh cell with a transport read error. -/
theorem C2_code_bug_eval :
    updateStep (NewLeaderElectionCell Nat ["a", "leader"] 2000000000) 5
      { readResult := Except.error AgencyError.other, now := 50000000000,
        writeNow := 50000000000, writeResult := none, ctxDone := false } =
    { cell := { lastTTL := 52, leading := true, key := ["a", "leader"], ttl := 2000000000 },
      out := StepOutcome.ret 5 true 1000000000 none,
      issuedTrx := some
        { keys := [KeyOp.set ["a", "leader"] { Data := 5, TTL := 52 } 0],
          conditions := [(["a", "leader", "ttl"], Condition.ifEqualTTL 0)] } } := by
  rfl

/-- C3: every claim/renew write issued inside `Update` writes the record
{value = candidateValue, expiry = unix(now + leaseDuration)} at key, and is
guarded by exactly one precondition: the key-previously-absent condition
exactly when assumeEmpty holds (the key-not-found read path), and otherwise
the condition that the record's ttl field equals the cell's lastKnownExpiry
at the moment of the write.  The write-time cell `lw` is pinned: the step is
literally the election block on `lw`, and when assumeEmpty is false,
`lw.lastTTL` — the fence value — equals the observed record's TTL, which is
the cell's lastKnownExpiry at the write (the expired branch just assigned
it; the renew branch required the equality). -/
theorem C3_claim_precondition {T : Type} [Inhabited T] [DecidableEq T]
    (l : LeaderElectionCell T) (value : T) (inp : StepInput T) (trx : Transaction T)
    (h : (updateStep l value inp).issuedTrx = some trx) :
    ∃ (lw : LeaderElectionCell T) (assumeEmpty : Bool),
      lw.key = l.key ∧ lw.ttl = l.ttl ∧
      updateStep l value inp = tryLeaderElectionBlock lw value assumeEmpty inp ∧
      trx = tryBecomeLeaderTrx lw value assumeEmpty inp.writeNow ∧
      trx.keys = [KeyOp.set l.key { Data := value, TTL := unixOf (inp.writeNow + l.ttl) } 0] ∧
      (assumeEmpty = false → lw.lastTTL = (readRecordOf inp).TTL) ∧
      trx.conditions = (if assumeEmpty then [(l.key, Condition.oldEmpty true)]
                        else [(l.key ++ [keyTTL],
                               Condition.ifEqualTTL (readRecordOf inp).TTL)]) ∧
      (assumeEmpty = true ↔ inp.readResult = Except.error AgencyError.keyNotFound) := by
  rcases updateStep_cases l value inp with ⟨lw, ae, hk, ht, hlast, hiff, heq⟩ | ⟨hnone, _⟩
  · rw [heq, tryBlock_issuedTrx] at h
    injection h with h1
    subst h1
    refine ⟨lw, ae, hk, ht, heq, rfl, ?_, hlast, ?_, hiff⟩
    · cases ae <;> simp [tryBecomeLeaderTrx, hk, ht]
    · cases ae with
      | true => simp [tryBecomeLeaderTrx, hk]
      | false => simp [tryBecomeLeaderTrx, hk, hlast rfl]
  · rw [hnone] at h
    cases h

/-- C4: whenever the conditional claim/renew write inside `Update` succeeds,
the cell ends with believesLeading = true and lastKnownExpiry set to the
newly written expiry, and `Update` returns (candidateValue, isLeader = true,
leaseDuration/2, no error). -/
theorem C4_write_success {T : Type} [Inhabited T] [DecidableEq T]
    (l : LeaderElectionCell T) (value : T) (inp : StepInput T)
    (hw : inp.writeResult = none)
    (hissued : (updateStep l value inp).issuedTrx.isSome = true) :
    (updateStep l value inp).out = StepOutcome.ret value true (Int.tdiv l.ttl 2) none ∧
    (updateStep l value inp).cell.leading = true ∧
    (updateStep l value inp).cell.lastTTL = unixOf (inp.writeNow + l.ttl) := by
  rcases updateStep_cases l value inp with ⟨lw, ae, hk, ht, _, _, heq⟩ | ⟨hnone, _⟩
  · rw [heq, tryBlock_success lw value ae inp hw]
    refine ⟨?_, rfl, ?_⟩
    · rw [ht]
    · rw [ht]
  · rw [hnone] at hissued
    simp at hissued

/-- C5: whenever `Update` returns isLeader = false with no error (the
someone-else-leads branch), the returned nextCallDelay is the time
remaining until the observed record's expiry clamped from below to the
500ms minimum delay, so it is never below 500ms — in particular never zero
or negative — even when the observed expiry is in the immediate past. -/
theorem C5_backoff_floor {T : Type} [Inhabited T] [DecidableEq T]
    (l : LeaderElectionCell T) (value : T) (inps : List (StepInput T))
    (l1 : LeaderElectionCell T) (v : T) (d : Int)
    (h : updateLoop l value inps = some (l1, v, false, d, none)) :
    minUpdateDelay ≤ d ∧
    ∃ inp ∈ inps, v = (readRecordOf inp).Data ∧
      d = (if (readRecordOf inp).TTL * nsPerSecond - inp.now < minUpdateDelay then minUpdateDelay
           else (readRecordOf inp).TTL * nsPerSecond - inp.now) := by
  induction inps generalizing l with
  | nil => simp [updateLoop] at h
  | cons inp rest ih =>
      cases hs : updateStep l value inp with
      | mk cell out issued =>
          cases out with
          | ret v2 isL2 d2 e2 =>
              have hl : updateLoop l value (inp :: rest) = some (cell, v2, isL2, d2, e2) := by
                simp only [updateLoop, hs]
              rw [hl] at h
              simp only [Option.some.injEq, Prod.mk.injEq] at h
              obtain ⟨hc, hv, hisL, hd, he⟩ := h
              subst hv
              subst hisL
              subst hd
              subst he
              have hout : (updateStep l value inp).out = StepOutcome.ret v2 false d2 none := by
                rw [hs]
              obtain ⟨h1, h2⟩ := updateStep_false_none l value inp v2 d2 hout
              refine ⟨?_, inp, List.mem_cons_self inp rest, h1, h2⟩
              rw [h2]
              exact minUpdateDelay_le_clamped _
          | retry s =>
              have hl : updateLoop l value (inp :: rest) = updateLoop cell value rest := by
                simp only [updateLoop, hs]
              rw [hl] at h
              obtain ⟨hfloor, inp2, hmem, hrest⟩ := ih cell h
              exact ⟨hfloor, inp2, List.mem_cons_of_mem inp hmem, hrest⟩

/-- C6: when the claim/renew write inside `Update` fails: a precondition
failure with the context not yet done makes `Update` sleep the 500ms
minimum delay and restart the whole algorithm from the re-read (the loop
continues on the same cell state); a precondition failure with the context
already done returns that error immediately; and any non-precondition
failure is returned immediately without retrying. -/
theorem C6_write_failure {T : Type} [Inhabited T] [DecidableEq T]
    (l : LeaderElectionCell T) (value : T) (inp : StepInput T) (e : AgencyError)
    (rest : List (StepInput T))
    (hissued : (updateStep l value inp).issuedTrx.isSome = true)
    (hw : inp.writeResult = some e) :
    (e ≠ AgencyError.preconditionFailed →
      (updateStep l value inp).out = StepOutcome.ret default false 0 (some e)) ∧
    (e = AgencyError.preconditionFailed → inp.ctxDone = true →
      (updateStep l value inp).out = StepOutcome.ret default false 0 (some e)) ∧
    (e = AgencyError.preconditionFailed → inp.ctxDone = false →
      (updateStep l value inp).out = StepOutcome.retry minUpdateDelay ∧
      updateLoop l value (inp :: rest) = updateLoop (updateStep l value inp).cell value rest) := by
  rcases updateStep_cases l value inp with ⟨lw, ae, hk, ht, _, _, heq⟩ | ⟨hnone, _⟩
  · refine ⟨?_, ?_, ?_⟩
    · intro hne
      rw [heq, tryBlock_fail_other lw value ae inp e hw hne]
    · intro hpf hcd
      subst hpf
      rw [heq, tryBlock_fail_pf_done lw value ae inp hw hcd]
    · intro hpf hcd
      subst hpf
      have hb := tryBlock_fail_pf_retry lw value ae inp hw hcd
      have hrec : updateStep l value inp =
          { cell := lw, out := StepOutcome.retry minUpdateDelay,
            issuedTrx := some (tryBecomeLeaderTrx lw value ae inp.writeNow) } := by
        rw [heq, hb]
      refine ⟨?_, ?_⟩
      · rw [hrec]
      · simp only [updateLoop, hrec]
  · rw [hnone] at hissued
    simp at hissued

/-- `Resign` on a cell that does not believe it is leading is a no-op. -/
theorem Resign_not_leading {T : Type} (l : LeaderElectionCell T) (w : Option AgencyError)
    (hl : l.leading = false) :
    Resign l w = { cell := l, err := none, issuedTrx := none } := by
  simp [Resign, hl]

/-- C7: `Resign` is a no-op without error or store write when the cell does
not believe it is leading; when it does, it clears believesLeading before
issuing the conditional delete, downgrades a precondition failure of the
delete to success, and surfaces any other delete failure; consequently a
second `Resign` in a row never errors (and issues no write). -/
theorem C7_resign {T : Type} (l : LeaderElectionCell T) (w : Option AgencyError) :
    (l.leading = false → Resign l w = { cell := l, err := none, issuedTrx := none }) ∧
    (l.leading = true →
      (Resign l w).cell.leading = false ∧
      (Resign l w).issuedTrx = some (resignTrx l) ∧
      (w = some AgencyError.preconditionFailed → (Resign l w).err = none) ∧
      (∀ e, w = some e → e ≠ AgencyError.preconditionFailed → (Resign l w).err = some e)) ∧
    (∀ w2, (Resign (Resign l w).cell w2).err = none ∧
      (Resign (Resign l w).cell w2).issuedTrx = none) := by
  have hafter : (Resign l w).cell.leading = false := by
    cases hl : l.leading with
    | false => rw [Resign_not_leading l w hl]; exact hl
    | true =>
        cases w with
        | none => simp [Resign, hl]
        | some e => by_cases hpf : e = AgencyError.preconditionFailed <;> simp [Resign, hl, hpf]
  refine ⟨?_, ?_, ?_⟩
  · intro hl
    exact Resign_not_leading l w hl
  · intro hl
    refine ⟨hafter, ?_, ?_, ?_⟩
    · cases w with
      | none => simp [Resign, hl]
      | some e => by_cases hpf : e = AgencyError.preconditionFailed <;> simp [Resign, hl, hpf]
    · intro hww
      subst hww
      simp [Resign, hl]
    · intro e hww hne
      subst hww
      simp [Resign, hl, hne]
  · intro w2
    rw [Resign_not_leading ((Resign l w).cell) w2 hafter]
    exact ⟨rfl, rfl⟩

/-- C8: `Read` maps a key-not-found read outcome to the zero value of the
payload type with no error, and surfaces every other read failure to the
caller unmodified (also with the zero value). -/
theorem C8_read_errors {T : Type} [Inhabited T] (l : LeaderElectionCell T)
    (rr : Except AgencyError (leaderStruct T)) :
    (rr = Except.error AgencyError.keyNotFound → Read l rr = (l, default, none)) ∧
    (∀ e, rr = Except.error e → e ≠ AgencyError.keyNotFound →
      Read l rr = (l, default, some e)) := by
  constructor
  · intro h
    subst h
    rfl
  · intro e h hne
    subst h
    simp [Read, hne]

/-- C9: `Read` never modifies the cell — for every read outcome, all four
fields (lastTTL, leading, key, ttl) are unchanged. -/
theorem C9_read_frame {T : Type} [Inhabited T] (l : LeaderElectionCell T)
    (rr : Except AgencyError (leaderStruct T)) :
    (Read l rr).1.lastTTL = l.lastTTL ∧ (Read l rr).1.leading = l.leading ∧
    (Read l rr).1.key = l.key ∧ (Read l rr).1.ttl = l.ttl := by
  cases rr with
  | error e =>
      by_cases h : e = AgencyError.keyNotFound <;> simp [Read, h]
  | ok r => simp [Read]

/-- C10: every `Update` return with a non-nil error carries the zero value
of the payload type as currentValue, isLeader = false, and nextCallDelay
exactly 0. -/
theorem C10_error_returns {T : Type} [Inhabited T] [DecidableEq T]
    (l : LeaderElectionCell T) (value : T) (inps : List (StepInput T))
    (l1 : LeaderElectionCell T) (v : T) (isL : Bool) (d : Int) (e : AgencyError)
    (h : updateLoop l value inps = some (l1, v, isL, d, some e)) :
    v = default ∧ isL = false ∧ d = 0 := by
  induction inps generalizing l with
  | nil => simp [updateLoop] at h
  | cons inp rest ih =>
      cases hs : updateStep l value inp with
      | mk cell out issued =>
          cases out with
          | ret v2 isL2 d2 e2 =>
              have hl : updateLoop l value (inp :: rest) = some (cell, v2, isL2, d2, e2) := by
                simp only [updateLoop, hs]
              rw [hl] at h
              simp only [Option.some.injEq, Prod.mk.injEq] at h
              obtain ⟨hc, hv, hisL, hd, he⟩ := h
              subst hv
              subst hisL
              subst hd
              subst he
              have hout : (updateStep l value inp).out = StepOutcome.ret v2 isL2 d2 (some e) := by
                rw [hs]
              exact updateStep_error l value inp v2 isL2 d2 e hout
          | retry s =>
              have hl : updateLoop l value (inp :: rest) = updateLoop cell value rest := by
                simp only [updateLoop, hs]
              rw [hl] at h
              exact ih cell h

/-! Witnesses: each instantiates its claim theorem at a concrete input. -/

/-- C1 witness: concrete restart-bootstrap scenario for the amended claim. -/
theorem C1_witness :
    unixOf 50000000000 < 100 ∧
    (updateStep (NewLeaderElectionCell Nat ["b", "x"] 2000000000) 7
      { readResult := Except.ok { Data := 7, TTL := 100 }, now := 50000000000,
        writeNow := 50000000000, writeResult := none, ctxDone := false }).out =
      StepOutcome.ret 7 true (Int.tdiv 2000000000 2) none := by
  have h := C1_amended (NewLeaderElectionCell Nat ["b", "x"] 2000000000) 7
    { Data := 7, TTL := 100 }
    { readResult := Except.ok { Data := 7, TTL := 100 }, now := 50000000000,
      writeNow := 50000000000, writeResult := none, ctxDone := false }
    rfl rfl rfl (by decide) rfl rfl
  exact ⟨by decide, h.2.2.1⟩

/-- C3 witness: the renew path at a concrete input — a fresh cell
bootstraps onto a matching record with expiry 80 and issues a renewal write
fenced on ttl = 80, the observed record's expiry and the cell's
lastKnownExpiry at the moment of the write. -/
theorem C3_witness :
    ∃ (lw : LeaderElectionCell Nat) (assumeEmpty : Bool),
      lw.key = ["r"] ∧ lw.ttl = 2000000000 ∧
      updateStep (NewLeaderElectionCell Nat ["r"] 2000000000) 6
        { readResult := Except.ok { Data := 6, TTL := 80 }, now := 50000000000,
          writeNow := 50000000000, writeResult := none, ctxDone := false } =
        tryLeaderElectionBlock lw 6 assumeEmpty
          { readResult := Except.ok { Data := 6, TTL := 80 }, now := 50000000000,
            writeNow := 50000000000, writeResult := none, ctxDone := false } ∧
      ({ keys := [KeyOp.set ["r"] { Data := 6, TTL := 52 } 0],
         conditions := [(["r", "ttl"], Condition.ifEqualTTL 80)] } : Transaction Nat) =
        tryBecomeLeaderTrx lw 6 assumeEmpty 50000000000 ∧
      ({ keys := [KeyOp.set ["r"] { Data := 6, TTL := 52 } 0],
         conditions := [(["r", "ttl"], Condition.ifEqualTTL 80)] } : Transaction Nat).keys =
        [KeyOp.set ["r"] { Data := 6, TTL := 52 } 0] ∧
      (assumeEmpty = false → lw.lastTTL = 80) ∧
      ({ keys := [KeyOp.set ["r"] { Data := 6, TTL := 52 } 0],
         conditions := [(["r", "ttl"], Condition.ifEqualTTL 80)] } : Transaction Nat).conditions =
        (if assumeEmpty then [(["r"], Condition.oldEmpty true)]
         else [(["r"] ++ [keyTTL], Condition.ifEqualTTL 80)]) ∧
      (assumeEmpty = true ↔
        (Except.ok { Data := 6, TTL := 80 } : Except AgencyError (leaderStruct Nat)) =
          Except.error AgencyError.keyNotFound) := by
  exact C3_claim_precondition (NewLeaderElectionCell Nat ["r"] 2000000000) 6
    { readResult := Except.ok { Data := 6, TTL := 80 }, now := 50000000000,
      writeNow := 50000000000, writeResult := none, ctxDone := false }
    { keys := [KeyOp.set ["r"] { Data := 6, TTL := 52 } 0],
      conditions := [(["r", "ttl"], Condition.ifEqualTTL 80)] }
    rfl

/-- C4 witness: a successful claim write at a concrete input. -/
theorem C4_witness :
    (updateStep (NewLeaderElectionCell Nat ["w"] 2000000000) 9
      { readResult := Except.error AgencyError.keyNotFound, now := 0,
        writeNow := 50000000000, writeResult := none, ctxDone := false }).out =
      StepOutcome.ret 9 true (Int.tdiv 2000000000 2) none ∧
    (updateStep (NewLeaderElectionCell Nat ["w"] 2000000000) 9
      { readResult := Except.error AgencyError.keyNotFound, now := 0,
        writeNow := 50000000000, writeResult := none, ctxDone := false }).cell.leading = true ∧
    (updateStep (NewLeaderElectionCell Nat ["w"] 2000000000) 9
      { readResult := Except.error AgencyError.keyNotFound, now := 0,
        writeNow := 50000000000, writeResult := none, ctxDone := false }).cell.lastTTL =
      unixOf (50000000000 + 2000000000) := by
  exact C4_write_success (NewLeaderElectionCell Nat ["w"] 2000000000) 9
    { readResult := Except.error AgencyError.keyNotFound, now := 0,
      writeNow := 50000000000, writeResult := none, ctxDone := false }
    rfl rfl

/-- C5 witness: someone else leads with a comfortable remaining lease at a
concrete input; the returned delay is the remaining time, above the floor. -/
theorem C5_witness :
    minUpdateDelay ≤ (50000000000 : Int) ∧
    ∃ inp ∈ [({ readResult := Except.ok { Data := 9, TTL := 100 }, now := 50000000000,
                writeNow := 0, writeResult := none, ctxDone := false } : StepInput Nat)],
      (9 : Nat) = (readRecordOf inp).Data ∧
      (50000000000 : Int) =
        (if (readRecordOf inp).TTL * nsPerSecond - inp.now < minUpdateDelay then minUpdateDelay
         else (readRecordOf inp).TTL * nsPerSecond - inp.now) := by
  exact C5_backoff_floor (NewLeaderElectionCell Nat ["k"] 2000000000) 5
    [{ readResult := Except.ok { Data := 9, TTL := 100 }, now := 50000000000,
       writeNow := 0, writeResult := none, ctxDone := false }]
    { lastTTL := 100, leading := false, key := ["k"], ttl := 2000000000 } 9 50000000000
    rfl

/-- C6 witness: a precondition-failed claim write with the context alive at
a concrete input; the loop retries from the re-read. -/
theorem C6_witness :
    (AgencyError.preconditionFailed ≠ AgencyError.preconditionFailed →
      (updateStep (NewLeaderElectionCell Nat ["k"] 2000000000) 5
        { readResult := Except.error AgencyError.keyNotFound, now := 0, writeNow := 0,
          writeResult := some AgencyError.preconditionFailed, ctxDone := false }).out =
        StepOutcome.ret default false 0 (some AgencyError.preconditionFailed)) ∧
    (AgencyError.preconditionFailed = AgencyError.preconditionFailed → false = true →
      (updateStep (NewLeaderElectionCell Nat ["k"] 2000000000) 5
        { readResult := Except.error AgencyError.keyNotFound, now := 0, writeNow := 0,
          writeResult := some AgencyError.preconditionFailed, ctxDone := false }).out =
        StepOutcome.ret default false 0 (some AgencyError.preconditionFailed)) ∧
    (AgencyError.preconditionFailed = AgencyError.preconditionFailed → false = false →
      (updateStep (NewLeaderElectionCell Nat ["k"] 2000000000) 5
        { readResult := Except.error AgencyError.keyNotFound, now := 0, writeNow := 0,
          writeResult := some AgencyError.preconditionFailed, ctxDone := false }).out =
        StepOutcome.retry minUpdateDelay ∧
      updateLoop (NewLeaderElectionCell Nat ["k"] 2000000000) 5
        ({ readResult := Except.error AgencyError.keyNotFound, now := 0, writeNow := 0,
           writeResult := some AgencyError.preconditionFailed, ctxDone := false } :: []) =
        updateLoop
          (updateStep (NewLeaderElectionCell Nat ["k"] 2000000000) 5
            { readResult := Except.error AgencyError.keyNotFound, now := 0, writeNow := 0,
              writeResult := some AgencyError.preconditionFailed, ctxDone := false }).cell
          5 []) := by
  exact C6_write_failure (NewLeaderElectionCell Nat ["k"] 2000000000) 5
    { readResult := Except.error AgencyError.keyNotFound, now := 0, writeNow := 0,
      writeResult := some AgencyError.preconditionFailed, ctxDone := false }
    AgencyError.preconditionFailed [] rfl rfl

/-- C7 witness: a leading cell whose delete fails with a transport error
surfaces it; resigning again right after never errors. -/
theorem C7_witness :
    (Resign ({ lastTTL := 7, leading := true, key := ["k"], ttl := 5 } : LeaderElectionCell Nat)
      (some AgencyError.other)).err = some AgencyError.other ∧
    (Resign
      (Resign ({ lastTTL := 7, leading := true, key := ["k"], ttl := 5 } : LeaderElectionCell Nat)
        (some AgencyError.other)).cell none).err = none := by
  constructor
  · exact ((C7_resign { lastTTL := 7, leading := true, key := ["k"], ttl := 5 }
      (some AgencyError.other)).2.1 rfl).2.2.2 AgencyError.other rfl (by decide)
  · exact ((C7_resign { lastTTL := 7, leading := true, key := ["k"], ttl := 5 }
      (some AgencyError.other)).2.2 none).1

/-- C8 witness: not-found maps to the zero value with no error; a transport
read error is surfaced unmodified. -/
theorem C8_witness :
    Read (NewLeaderElectionCell Nat ["k"] 5) (Except.error AgencyError.keyNotFound) =
      (NewLeaderElectionCell Nat ["k"] 5, 0, none) ∧
    Read (NewLeaderElectionCell Nat ["k"] 5) (Except.error AgencyError.other) =
      (NewLeaderElectionCell Nat ["k"] 5, 0, some AgencyError.other) := by
  constructor
  · exact (C8_read_errors (NewLeaderElectionCell Nat ["k"] 5)
      (Except.error AgencyError.keyNotFound)).1 rfl
  · exact (C8_read_errors (NewLeaderElectionCell Nat ["k"] 5)
      (Except.error AgencyError.other)).2 AgencyError.other rfl (by decide)

/-- C10 witness: a concrete Update run ending in a transport write error
returns the zero value, false and delay 0 alongside the error. -/
theorem C10_witness :
    updateLoop (NewLeaderElectionCell Nat ["k"] 2000000000) 5
      [{ readResult := Except.error AgencyError.keyNotFound, now := 0, writeNow := 0,
         writeResult := some AgencyError.other, ctxDone := false }] =
      some (NewLeaderElectionCell Nat ["k"] 2000000000, 0, false, 0, some AgencyError.other) ∧
    ((0 : Nat) = default ∧ false = false ∧ (0 : Int) = 0) := by
  refine ⟨rfl, ?_⟩
  exact C10_error_returns (NewLeaderElectionCell Nat ["k"] 2000000000) 5
    [{ readResult := Except.error AgencyError.keyNotFound, now := 0, writeNow := 0,
       writeResult := some AgencyError.other, ctxDone := false }]
    (NewLeaderElectionCell Nat ["k"] 2000000000) 0 false 0 AgencyError.other rfl

end Election
